import Mathlib

/-!
Verification of the HEOS custom integration's group/session state
reconciliation engine (`custom_components/heos`).

The Python source is shallowly embedded:

* a `HeosPlayer` carries its `player_id` (and display name);
* a `HeosGroup` is a leader player plus a member list, as delivered by
  `pyheos`;
* a Python `dict` (insertion ordered, unique keys) is embedded as an
  association list `List (Nat × α)`; `dictInsert` is `d[k] = v`
  (overwrite in place, append when the key is fresh) and `dictUpdate`
  is `d.update(e)`;
* `self.groups` of `GroupManager` is such an association list from
  group id to `HeosGroup`;
* an `await` that can raise `HeosError` is embedded by passing the
  outcome of the controller call as an `Except String _` argument;
* the Python sentinel `""` returned by `GroupManager.get_groupid` is
  embedded as `none : Option Nat` (group ids are integers, the
  sentinel is the only non-integer value the function can produce).
-/

structure HeosPlayer where
  player_id : Nat
  name : String
deriving DecidableEq, Repr

structure HeosGroup where
  name : String
  leader : HeosPlayer
  members : List HeosPlayer
deriving DecidableEq, Repr

/-- A Python `dict` keyed by player/group id, in insertion order. -/
abbrev Dict (α : Type) := List (Nat × α)

/-- Python `d[k] = v` on a dict: overwrite in place when the key is
present, append otherwise. -/
def dictInsert (d : Dict α) (k : Nat) (v : α) : Dict α :=
  if d.any (fun p => p.1 = k) then
    d.map (fun p => if p.1 = k then (k, v) else p)
  else
    d ++ [(k, v)]

/-- Python `d.update(e)` on dicts. -/
def dictUpdate (d e : Dict α) : Dict α :=
  e.foldl (fun d p => dictInsert d p.1 p.2) d

/-- Python `d.get(k, None)` on a dict. -/
def dictGet (d : Dict α) (k : Nat) : Option α :=
  (d.find? (fun p => p.1 = k)).map Prod.snd

/-- Python `k in d` on a dict (key membership). -/
def dictContains (d : Dict α) (k : Nat) : Bool :=
  d.any (fun p => p.1 = k)

/-- The group mapping held in `GroupManager.groups`. -/
abbrev Groups := Dict HeosGroup

/-- The mutable state of `GroupManager` (its `groups` attribute). -/
structure GroupManagerState where
  groups : Groups
deriving DecidableEq, Repr

/-- Embeds `GroupManager.refresh_groups`: `self.groups = await
self.controller.get_groups(refresh=True)`.  The controller call's
outcome is the `fetched` argument; when it raises, the assignment does
not execute (the old mapping is kept) and the exception propagates,
here as the second component. -/
def refresh_groups (st : GroupManagerState) (fetched : Except String Groups) :
    GroupManagerState × Option String :=
  match fetched with
  | Except.ok gs => ({ st with groups := gs }, none)
  | Except.error e => (st, some e)

/-- Embeds `GroupManager.playerdict`. -/
def playerdict (players : List HeosPlayer) : Dict HeosPlayer :=
  players.foldl (fun d player => dictInsert d player.player_id player) []

/-- Embeds `GroupManager.player_member`. -/
def player_member (group : HeosGroup) (player : HeosPlayer) : Bool :=
  group.members.any (fun member => member.player_id = player.player_id)

/-- Embeds `GroupManager.players_member`. -/
def players_member (group : HeosGroup) (players : Dict HeosPlayer) : Bool :=
  players.any (fun p => player_member group p.2)

/-- Embeds `GroupManager.player_master`. -/
def player_master (group : HeosGroup) (player : HeosPlayer) : Bool :=
  group.leader.player_id = player.player_id

/-- Embeds `GroupManager.entity_id_from_player_id`: scan the media-player
entities (here a list of `(player_id, entity_id)` pairs) and return
the first entity id with a matching player id, else `None`. -/
def entity_id_from_player_id (entities : List (Nat × String)) (playerid : Nat) :
    Option String :=
  (entities.find? (fun e => playerid = e.1)).map Prod.snd

/-- Embeds `GroupManager.get_groupid`: return the id of the first group whose
leader or members contain the player; the Python `""` sentinel for a
miss is embedded as `none`. -/
def get_groupid (groups : Groups) (player : HeosPlayer) : Option Nat :=
  (groups.find? (fun p => player_master p.2 player || player_member p.2 player)).map
    Prod.fst

/-- Embeds `self.groups.get(groupid, None)` where `groupid` is either a group
id or the `""` sentinel (`none`), which matches no integer key. -/
def groups_get (groups : Groups) : Option Nat → Option HeosGroup
  | none => none
  | some gid => dictGet groups gid

/-- Embeds `GroupManager.get_grouplist`: `[]` on an unknown id, else the
leader's entity id followed by the members' entity ids in
controller-reported order (each possibly `None`). -/
def get_grouplist (entities : List (Nat × String)) (groups : Groups)
    (groupid : Option Nat) : List (Option String) :=
  match groups_get groups groupid with
  | none => []
  | some group =>
      entity_id_from_player_id entities group.leader.player_id ::
        group.members.map (fun member => entity_id_from_player_id entities member.player_id)

/-- Embeds `GroupManager.get_groupname`: `""` on an unknown id. -/
def get_groupname (groups : Groups) (groupid : Option Nat) : String :=
  match groups_get groups groupid with
  | none => ""
  | some group => group.name

/-- The `cmdstring` built by `GroupManager.groupcmd_controller`:
`cmdstring += f"{member.player_id},"` over the dict's values.  (The
source then evaluates `cmdstring.rstrip(",")` but discards the result,
so the string is used untouched.) -/
def cmdstring (newgroup : Dict HeosPlayer) : String :=
  newgroup.foldl (fun acc p => acc ++ (toString p.2.player_id ++ ",")) ""

/-- Embeds `GroupManager.groupcmd_controller`: when the dict is non-empty,
send `create_group(cmdstring, "")` (embedded as `some cmdstring`);
otherwise do nothing and return `None` (embedded as `none`). -/
def groupcmd_controller (newgroup : Dict HeosPlayer) : Option String :=
  if newgroup.length > 0 then
    some (cmdstring newgroup)
  else
    none

/-- The `newgroup` dict computed by `GroupManager.join` after a
successful refresh (`groups` is the refreshed mapping): the loop with
`break` is a first-match scan for a group led by `master`; then the
master is added when no group was found (or there were no groups at
all), and finally the requested members are merged in. -/
def joinNewgroup (groups : Groups) (master : HeosPlayer)
    (members : Dict HeosPlayer) : Dict HeosPlayer :=
  let found := groups.find? (fun p => master.player_id = p.2.leader.player_id)
  let newgroup :=
    match found with
    | some p => dictUpdate (dictInsert [] master.player_id master) (playerdict p.2.members)
    | none => []
  let newgroup :=
    if groups.isEmpty || newgroup.length = 0 then
      dictInsert newgroup master.player_id master
    else
      newgroup
  dictUpdate newgroup members

/-- Embeds `GroupManager.join` after a successful refresh: compute the target
dict and hand it to `groupcmd_controller`. -/
def join (groups : Groups) (master : HeosPlayer) (members : Dict HeosPlayer) :
    Option String :=
  groupcmd_controller (joinNewgroup groups master members)

/-- The inner removal loop of `GroupManager.unjoin`: starting from the
dict holding the leader, for every `oldmember` of the group and every
`removeplayer` requested, re-add `oldmember` unless its id matches
that `removeplayer`. -/
def unjoinMemberLoop (start : Dict HeosPlayer) (oldmembers : List HeosPlayer)
    (members : Dict HeosPlayer) : Dict HeosPlayer :=
  oldmembers.foldl
    (fun d oldmember =>
      members.foldl
        (fun d removeplayer =>
          if oldmember.player_id = removeplayer.2.player_id then d
          else dictInsert d oldmember.player_id oldmember)
        d)
    start

/-- The `newgroup` dict computed by `GroupManager.unjoin` after a
successful refresh: scan the groups in order; at the first group whose
leader is among `members` keep the leader alone and stop; at the first
group one of whose members is among `members` run the removal loop and
stop; otherwise the dict stays empty. -/
def unjoinNewgroup (groups : Groups) (members : Dict HeosPlayer) : Dict HeosPlayer :=
  match groups with
  | [] => []
  | (_, group) :: rest =>
      if dictContains members group.leader.player_id then
        dictInsert [] group.leader.player_id group.leader
      else if players_member group members then
        unjoinMemberLoop (dictInsert [] group.leader.player_id group.leader)
          group.members members
      else
        unjoinNewgroup rest members

/-- Embeds `GroupManager.unjoin` after a successful refresh. -/
def unjoin (groups : Groups) (members : Dict HeosPlayer) : Option String :=
  groupcmd_controller (unjoinNewgroup groups members)

/-- The predicate of `unjoin`'s first-match scan: the group's leader
or one of its members is among the players to remove. -/
def unjoinMatches (members : Dict HeosPlayer) (p : Nat × HeosGroup) : Bool :=
  dictContains members p.2.leader.player_id || players_member p.2 members

/-- A device registry record: its registry entry id and the set of
`(DOMAIN, player_id)` identifiers, embedded as the list of player
ids. -/
structure DeviceEntry where
  id : String
  identifiers : List Nat
deriving DecidableEq, Repr

/-- An entity registry record: its entity id and unique id (the
source stores `str(player_id)`). -/
structure EntityEntry where
  entity_id : String
  unique_id : String
deriving DecidableEq, Repr

/-- The two host registries touched by `ControllerManager.update_ids`. -/
structure Registries where
  devices : List DeviceEntry
  entities : List EntityEntry
deriving DecidableEq, Repr

/-- Embeds `device_registry.async_get_device({(DOMAIN, old_id)})`: the first
device one of whose identifiers matches. -/
def async_get_device (devices : List DeviceEntry) (old_id : Nat) : Option DeviceEntry :=
  devices.find? (fun d => d.identifiers.contains old_id)

/-- Embeds `device_registry.async_update_device(entry.id,
new_identifiers={(DOMAIN, new_id)})`. -/
def async_update_device (devices : List DeviceEntry) (entry_id : String)
    (new_id : Nat) : List DeviceEntry :=
  devices.map (fun d => if d.id = entry_id then { d with identifiers := [new_id] } else d)

/-- Embeds `entity_registry.async_get_entity_id(MEDIA_PLAYER_DOMAIN, DOMAIN,
str(old_id))`. -/
def async_get_entity_id (entities : List EntityEntry) (uid : String) : Option String :=
  (entities.find? (fun e => e.unique_id = uid)).map (fun e => e.entity_id)

/-- Embeds `entity_registry.async_update_entity(entity_id,
new_unique_id=str(new_id))`. -/
def async_update_entity (entities : List EntityEntry) (eid : String)
    (new_uid : String) : List EntityEntry :=
  entities.map (fun e => if e.entity_id = eid then { e with unique_id := new_uid } else e)

/-- One iteration of `ControllerManager.update_ids` for a mapped pair
(`new_id : old_id`): re-key the device found by the old id and the
entity found by `str(old_id)`, each only when present. -/
def update_ids_pair (r : Registries) (new_id old_id : Nat) : Registries :=
  let devices :=
    match async_get_device r.devices old_id with
    | some entry => async_update_device r.devices entry.id new_id
    | none => r.devices
  let entities :=
    match async_get_entity_id r.entities (toString old_id) with
    | some entity_id => async_update_entity r.entities entity_id (toString new_id)
    | none => r.entities
  { devices := devices, entities := entities }

/-- Embeds `ControllerManager.update_ids`: iterate over the mapped ids
(`new : old` pairs). -/
def update_ids (r : Registries) (mapped_ids : List (Nat × Nat)) : Registries :=
  mapped_ids.foldl (fun r p => update_ids_pair r p.1 p.2) r

/-- Embeds `pyheos.const.STATE_CONNECTED`. -/
def STATE_CONNECTED : String := "connected"

/-- What a service handler's body does once past the connectivity
check: the controller commands it issues, whether an exception
surfaces to the caller, and the returned value.  The bodies act on the
host and controller (external collaborators); a handler is embedded as
a function of its body's outcome. -/
structure HandlerResult where
  commands : List String
  raised : Bool
  retval : Option String
deriving DecidableEq, Repr

/-- The outcome of a handler that hit the early `return`: nothing
sent, nothing raised, `None` returned (only a log entry). -/
def handlerNoop : HandlerResult :=
  { commands := [], raised := false, retval := none }

/-- Embeds `services._groupinfo_handler`: `if controller.connection_state !=
const.STATE_CONNECTED: log; return`, else run the body. -/
def groupinfo_handler (connection_state : String) (body : HandlerResult) :
    HandlerResult :=
  if connection_state ≠ STATE_CONNECTED then handlerNoop else body

/-- Embeds `services._join_handler`: same connectivity gate before any other
statement. -/
def join_handler (connection_state : String) (body : HandlerResult) :
    HandlerResult :=
  if connection_state ≠ STATE_CONNECTED then handlerNoop else body

/-- Embeds `services._unjoin_handler`: same connectivity gate before any
other statement. -/
def unjoin_handler (connection_state : String) (body : HandlerResult) :
    HandlerResult :=
  if connection_state ≠ STATE_CONNECTED then handlerNoop else body

/-- The group attributes cached on a `HeosMediaPlayer` entity. -/
structure HeosMediaPlayerState where
  groupid : Option Nat
  group_list : List (Option String)
  group_name : String
deriving DecidableEq, Repr

/-- Embeds `HeosMediaPlayer.get_groups`: gate on connectivity, then refresh
the group manager and rebuild the entity's cached attributes; on a
`HeosError` from the refresh, clear `_group_name` and `_group_list`
(while `_groupid` and the manager's own mapping keep their old
values).  Returns the entity state, the manager state, and the
returned list. -/
def get_groups (connection_state : String) (entities : List (Nat × String))
    (player : HeosPlayer) (st : HeosMediaPlayerState) (gm : GroupManagerState)
    (fetched : Except String Groups) :
    HeosMediaPlayerState × GroupManagerState × List (Option String) :=
  if connection_state ≠ STATE_CONNECTED then (st, gm, [])
  else
    match refresh_groups gm fetched with
    | (gm2, none) =>
        let groupid := get_groupid gm2.groups player
        let group_list := get_grouplist entities gm2.groups groupid
        let group_name := get_groupname gm2.groups groupid
        ({ groupid := groupid, group_list := group_list, group_name := group_name },
          gm2, group_list)
    | (gm2, some _) =>
        ({ st with group_name := "", group_list := [] }, gm2, [])

/-! ## Association-list (Python dict) lemmas -/

theorem dictInsert_map_fst (d : Dict α) (k : Nat) (v : α) :
    (dictInsert d k v).map Prod.fst =
      if d.any (fun p => p.1 = k) then d.map Prod.fst else d.map Prod.fst ++ [k] := by
  unfold dictInsert
  split
  case isTrue h =>
    simp only [List.map_map]
    refine List.map_congr_left ?_
    intro p _
    by_cases hp : p.1 = k
    · simp [hp]
    · simp [hp]
  case isFalse h =>
    simp

theorem dictInsert_ne_nil (d : Dict α) (k : Nat) (v : α) : dictInsert d k v ≠ [] := by
  unfold dictInsert
  split
  case isTrue h =>
    cases d with
    | nil => simp at h
    | cons p t => simp
  case isFalse h => simp

theorem dictInsert_keys_toFinset (d : Dict α) (k : Nat) (v : α) :
    ((dictInsert d k v).map Prod.fst).toFinset = insert k (d.map Prod.fst).toFinset := by
  rw [dictInsert_map_fst]
  split
  case isTrue h =>
    have hk : k ∈ (d.map Prod.fst).toFinset := by
      simp only [List.any_eq_true] at h
      obtain ⟨p, hp, hpk⟩ := h
      simp only [List.mem_toFinset, List.mem_map]
      exact ⟨p, hp, by simpa using hpk⟩
    rw [Finset.insert_eq_self.mpr hk]
  case isFalse h =>
    rw [List.toFinset_append]
    simp [Finset.union_comm, Finset.insert_eq]

theorem dictInsert_keys_nodup (d : Dict α) (k : Nat) (v : α)
    (h : (d.map Prod.fst).Nodup) : ((dictInsert d k v).map Prod.fst).Nodup := by
  rw [dictInsert_map_fst]
  split
  case isTrue _ => exact h
  case isFalse hany =>
    rw [List.nodup_append]
    refine ⟨h, List.nodup_singleton k, ?_⟩
    intro a ha hk
    simp only [List.mem_singleton] at hk
    subst hk
    simp only [List.any_eq_true] at hany
    simp only [List.mem_map] at ha
    obtain ⟨p, hp, hpk⟩ := ha
    exact hany ⟨p, hp, by simp [hpk]⟩

theorem dictInsert_keys_head (d : Dict α) (k : Nat) (v : α) (h : d ≠ []) :
    ((dictInsert d k v).map Prod.fst).head? = (d.map Prod.fst).head? := by
  rw [dictInsert_map_fst]
  split
  case isTrue _ => rfl
  case isFalse _ =>
    rw [List.head?_append]
    cases d with
    | nil => exact absurd rfl h
    | cons p t => simp

theorem dictUpdate_cons (d : Dict α) (p : Nat × α) (e : Dict α) :
    dictUpdate d (p :: e) = dictUpdate (dictInsert d p.1 p.2) e := rfl

theorem dictUpdate_nil (d : Dict α) : dictUpdate d [] = d := rfl

theorem dictUpdate_ne_nil (d e : Dict α) (h : d ≠ []) : dictUpdate d e ≠ [] := by
  induction e generalizing d with
  | nil => exact h
  | cons p t ih =>
      rw [dictUpdate_cons]
      exact ih _ (dictInsert_ne_nil d p.1 p.2)

theorem dictUpdate_keys_toFinset (d e : Dict α) :
    ((dictUpdate d e).map Prod.fst).toFinset =
      (d.map Prod.fst).toFinset ∪ (e.map Prod.fst).toFinset := by
  induction e generalizing d with
  | nil => simp [dictUpdate_nil]
  | cons p t ih =>
      rw [dictUpdate_cons, ih, dictInsert_keys_toFinset]
      simp [Finset.insert_union, Finset.union_insert]

theorem dictUpdate_keys_nodup (d e : Dict α) (h : (d.map Prod.fst).Nodup) :
    ((dictUpdate d e).map Prod.fst).Nodup := by
  induction e generalizing d with
  | nil => exact h
  | cons p t ih =>
      rw [dictUpdate_cons]
      exact ih _ (dictInsert_keys_nodup d p.1 p.2 h)

theorem dictUpdate_keys_head (d e : Dict α) (h : d ≠ []) :
    ((dictUpdate d e).map Prod.fst).head? = (d.map Prod.fst).head? := by
  induction e generalizing d with
  | nil => rfl
  | cons p t ih =>
      rw [dictUpdate_cons, ih _ (dictInsert_ne_nil d p.1 p.2)]
      exact dictInsert_keys_head d p.1 p.2 h

theorem playerdict_eq_dictUpdate (players : List HeosPlayer) :
    playerdict players = dictUpdate [] (players.map (fun p => (p.player_id, p))) := by
  unfold playerdict dictUpdate
  rw [List.foldl_map]

theorem playerdict_keys_toFinset (players : List HeosPlayer) :
    ((playerdict players).map Prod.fst).toFinset =
      (players.map HeosPlayer.player_id).toFinset := by
  rw [playerdict_eq_dictUpdate, dictUpdate_keys_toFinset]
  simp only [List.map_nil, List.toFinset_nil, Finset.empty_union, List.map_map]
  congr 1

/-- Keys of a dict agree with the `player_id` of the stored players. -/
def WfDict (d : Dict HeosPlayer) : Prop :=
  ∀ p ∈ d, p.1 = p.2.player_id

theorem dictInsert_wf (d : Dict HeosPlayer) (k : Nat) (v : HeosPlayer)
    (hd : WfDict d) (hkv : k = v.player_id) : WfDict (dictInsert d k v) := by
  unfold dictInsert
  split
  case isTrue _ =>
    intro p hp
    simp only [List.mem_map] at hp
    obtain ⟨q, hq, hqp⟩ := hp
    by_cases hqk : q.1 = k
    · simp only [hqk, if_pos] at hqp
      rw [← hqp]
      exact hkv
    · simp only [hqk, if_neg, not_false_iff] at hqp
      rw [← hqp]
      exact hd q hq
  case isFalse _ =>
    intro p hp
    rcases List.mem_append.mp hp with h | h
    · exact hd p h
    · simp only [List.mem_singleton] at h
      rw [h]
      exact hkv

theorem dictUpdate_wf (d e : Dict HeosPlayer) (hd : WfDict d) (he : WfDict e) :
    WfDict (dictUpdate d e) := by
  induction e generalizing d with
  | nil => exact hd
  | cons p t ih =>
      rw [dictUpdate_cons]
      refine ih _ (dictInsert_wf d p.1 p.2 hd (he p (by simp))) ?_
      intro q hq
      exact he q (by simp [hq])

theorem playerdict_wf (players : List HeosPlayer) : WfDict (playerdict players) := by
  rw [playerdict_eq_dictUpdate]
  refine dictUpdate_wf _ _ (by intro p hp; simp at hp) ?_
  intro p hp
  simp only [List.mem_map] at hp
  obtain ⟨q, _, hqp⟩ := hp
  rw [← hqp]

theorem wf_map_ids (d : Dict HeosPlayer) (h : WfDict d) :
    d.map (fun p => p.2.player_id) = d.map Prod.fst := by
  refine List.map_congr_left ?_
  intro p hp
  exact (h p hp).symm

theorem dictInsert_nil (k : Nat) (v : α) : dictInsert ([] : Dict α) k v = [(k, v)] := rfl

theorem joinNewgroup_of_found (groups : Groups) (master : HeosPlayer)
    (members : Dict HeosPlayer) (gid : Nat) (g : HeosGroup)
    (hfind : groups.find? (fun p => master.player_id = p.2.leader.player_id) =
      some (gid, g)) :
    joinNewgroup groups master members =
      dictUpdate (dictUpdate (dictInsert [] master.player_id master)
        (playerdict g.members)) members := by
  have hne : groups ≠ [] := by
    intro h
    subst h
    simp at hfind
  have hbase : dictUpdate (dictInsert [] master.player_id master)
      (playerdict g.members) ≠ [] :=
    dictUpdate_ne_nil _ _ (dictInsert_ne_nil _ _ _)
  unfold joinNewgroup
  rw [hfind]
  simp [List.isEmpty_iff, hne, List.length_eq_zero, hbase]

theorem joinNewgroup_ne_nil (groups : Groups) (master : HeosPlayer)
    (members : Dict HeosPlayer) : joinNewgroup groups master members ≠ [] := by
  unfold joinNewgroup
  cases hfind : groups.find? (fun p => master.player_id = p.2.leader.player_id) with
  | none =>
      simp only [hfind]
      split
      case isTrue _ => exact dictUpdate_ne_nil _ _ (dictInsert_ne_nil _ _ _)
      case isFalse h =>
        simp only [List.length_nil, decide_true_eq_true] at h
        exact absurd (by simp) h
  | some p =>
      simp only [hfind]
      split
      case isTrue _ => exact dictUpdate_ne_nil _ _ (dictInsert_ne_nil _ _ _)
      case isFalse _ =>
        exact dictUpdate_ne_nil _ _
          (dictUpdate_ne_nil _ _ (dictInsert_ne_nil _ _ _))

/-- C3: when `master` already leads an existing group (the first group
of the scan whose leader id is `master`'s), the dict sent to the
controller contains exactly {master} ∪ that group's members ∪ the
requested members, with duplicates collapsed by player id and with
`master`'s id first, and the create-group command is sent. -/
theorem heos_C3_join_extends_led_group (groups : Groups) (master : HeosPlayer)
    (members : Dict HeosPlayer) (gid : Nat) (g : HeosGroup)
    (hfind : groups.find? (fun p => master.player_id = p.2.leader.player_id) =
      some (gid, g))
    (hwf : ∀ p ∈ members, p.1 = p.2.player_id) :
    ((joinNewgroup groups master members).map Prod.fst).head? =
        some master.player_id ∧
    ((joinNewgroup groups master members).map Prod.fst).Nodup ∧
    ((joinNewgroup groups master members).map Prod.fst).toFinset =
      insert master.player_id
        ((g.members.map HeosPlayer.player_id).toFinset ∪
          (members.map Prod.fst).toFinset) ∧
    (joinNewgroup groups master members).map (fun p => p.2.player_id) =
      (joinNewgroup groups master members).map Prod.fst ∧
    join groups master members = some (cmdstring (joinNewgroup groups master members)) := by
  rw [joinNewgroup_of_found groups master members gid g hfind]
  have hone : dictInsert ([] : Dict HeosPlayer) master.player_id master =
      [(master.player_id, master)] := rfl
  have hbase : dictUpdate (dictInsert [] master.player_id master)
      (playerdict g.members) ≠ [] :=
    dictUpdate_ne_nil _ _ (dictInsert_ne_nil _ _ _)
  refine ⟨?_, ?_, ?_, ?_, ?_⟩
  · rw [dictUpdate_keys_head _ _ hbase, dictUpdate_keys_head _ _ (dictInsert_ne_nil _ _ _),
      hone]
    rfl
  · refine dictUpdate_keys_nodup _ _ (dictUpdate_keys_nodup _ _ ?_)
    rw [hone]
    simp
  · rw [dictUpdate_keys_toFinset, dictUpdate_keys_toFinset, playerdict_keys_toFinset, hone]
    simp [List.toFinset_cons, Finset.insert_union, Finset.insert_eq]
  · refine wf_map_ids _ (dictUpdate_wf _ _ (dictUpdate_wf _ _ ?_ (playerdict_wf _)) hwf)
    rw [hone]
    intro p hp
    simp only [List.mem_singleton] at hp
    rw [hp]
  · unfold join groupcmd_controller
    rw [if_pos]
    · rw [joinNewgroup_of_found groups master members gid g hfind]
    · rw [joinNewgroup_of_found groups master members gid g hfind]
      exact List.length_pos.mpr (dictUpdate_ne_nil _ _ hbase)

/-- C3 witness: player 1 already leads group 1 with member 2; joining
player 3 yields the dict with ids 1, 2, 3 (1 first) and a command. -/
theorem heos_C3_witness :
    (([(1, HeosGroup.mk "g" ⟨1, "A"⟩ [⟨2, "B"⟩])] : Groups).find?
        (fun p => (HeosPlayer.mk 1 "A").player_id = p.2.leader.player_id) =
      some (1, HeosGroup.mk "g" ⟨1, "A"⟩ [⟨2, "B"⟩])) ∧
    ((joinNewgroup [(1, HeosGroup.mk "g" ⟨1, "A"⟩ [⟨2, "B"⟩])] ⟨1, "A"⟩
        [(3, ⟨3, "C"⟩)]).map Prod.fst).head? = some 1 := by
  refine ⟨by decide, ?_⟩
  have h := heos_C3_join_extends_led_group
    [(1, HeosGroup.mk "g" ⟨1, "A"⟩ [⟨2, "B"⟩])] ⟨1, "A"⟩ [(3, ⟨3, "C"⟩)]
    1 (HeosGroup.mk "g" ⟨1, "A"⟩ [⟨2, "B"⟩]) (by decide) (by decide)
  exact h.1

theorem unjoinNewgroup_of_no_match (groups : Groups) (members : Dict HeosPlayer)
    (h : groups.find? (unjoinMatches members) = none) :
    unjoinNewgroup groups members = [] := by
  induction groups with
  | nil => rfl
  | cons p rest ih =>
      rw [List.find?_cons] at h
      cases hm : unjoinMatches members p with
      | true => rw [hm] at h; exact absurd h (by simp)
      | false =>
          rw [hm] at h
          have hlead : dictContains members p.2.leader.player_id = false := by
            unfold unjoinMatches at hm
            exact (Bool.or_eq_false_iff.mp hm).1
          have hmem : players_member p.2 members = false := by
            unfold unjoinMatches at hm
            exact (Bool.or_eq_false_iff.mp hm).2
          cases p with
          | mk gid group =>
              unfold unjoinNewgroup
              simp only at hlead hmem
              rw [hlead]
              simp only [Bool.false_eq_true, if_false]
              rw [hmem]
              simp only [Bool.false_eq_true, if_false]
              exact ih h

theorem unjoinNewgroup_of_leader_removed (groups : Groups)
    (members : Dict HeosPlayer) (gid : Nat) (g : HeosGroup)
    (hfind : groups.find? (unjoinMatches members) = some (gid, g))
    (hlead : dictContains members g.leader.player_id = true) :
    unjoinNewgroup groups members = [(g.leader.player_id, g.leader)] := by
  induction groups with
  | nil => simp at hfind
  | cons p rest ih =>
      rw [List.find?_cons] at hfind
      cases hm : unjoinMatches members p with
      | true =>
          rw [hm] at hfind
          simp only [Option.some.injEq] at hfind
          cases p with
          | mk gid2 group =>
              have hg : group = g := congrArg Prod.snd hfind
              subst hg
              unfold unjoinNewgroup
              rw [hlead]
              simp only [if_true]
              rw [dictInsert_nil]
      | false =>
          rw [hm] at hfind
          have hl : dictContains members p.2.leader.player_id = false := by
            unfold unjoinMatches at hm
            exact (Bool.or_eq_false_iff.mp hm).1
          have hmem : players_member p.2 members = false := by
            unfold unjoinMatches at hm
            exact (Bool.or_eq_false_iff.mp hm).2
          cases p with
          | mk gid2 group =>
              unfold unjoinNewgroup
              simp only at hl hmem
              rw [hl]
              simp only [Bool.false_eq_true, if_false]
              rw [hmem]
              simp only [Bool.false_eq_true, if_false]
              exact ih hfind

/-- C4: `unjoin` scans the groups in order and only the first group
whose leader or member is among the players to remove is processed:
when that group's leader is among them the dict sent to the controller
is the leader alone (the group dissolves) no matter which other
players were passed, and when no group matches nothing is sent and the
call returns `None`. -/
theorem heos_C4_unjoin_first_match (groups : Groups) (members : Dict HeosPlayer) :
    (∀ gid g, groups.find? (unjoinMatches members) = some (gid, g) →
      dictContains members g.leader.player_id = true →
      unjoinNewgroup groups members = [(g.leader.player_id, g.leader)] ∧
      unjoin groups members = some (cmdstring [(g.leader.player_id, g.leader)])) ∧
    (groups.find? (unjoinMatches members) = none →
      unjoinNewgroup groups members = [] ∧ unjoin groups members = none) := by
  constructor
  · intro gid g hfind hlead
    have h := unjoinNewgroup_of_leader_removed groups members gid g hfind hlead
    refine ⟨h, ?_⟩
    unfold unjoin groupcmd_controller
    rw [h]
    rfl
  · intro hfind
    have h := unjoinNewgroup_of_no_match groups members hfind
    refine ⟨h, ?_⟩
    unfold unjoin groupcmd_controller
    rw [h]
    rfl

/-- C4 witness: with group 1 led by player 1 (members 2, 3), removing
players 1 and 2 keeps the leader alone; removing only player 9 (in no
group) matches nothing and sends no command. -/
theorem heos_C4_witness :
    unjoinNewgroup [(1, HeosGroup.mk "g" ⟨1, "A"⟩ [⟨2, "B"⟩, ⟨3, "C"⟩])]
        [(1, ⟨1, "A"⟩), (2, ⟨2, "B"⟩)] = [(1, ⟨1, "A"⟩)] ∧
    unjoin [(1, HeosGroup.mk "g" ⟨1, "A"⟩ [⟨2, "B"⟩, ⟨3, "C"⟩])] [(9, ⟨9, "X"⟩)] =
      none := by
  constructor
  · exact ((heos_C4_unjoin_first_match
      [(1, HeosGroup.mk "g" ⟨1, "A"⟩ [⟨2, "B"⟩, ⟨3, "C"⟩])]
      [(1, ⟨1, "A"⟩), (2, ⟨2, "B"⟩)]).1 1 (HeosGroup.mk "g" ⟨1, "A"⟩ [⟨2, "B"⟩, ⟨3, "C"⟩])
      (by decide) (by decide)).1
  · exact ((heos_C4_unjoin_first_match
      [(1, HeosGroup.mk "g" ⟨1, "A"⟩ [⟨2, "B"⟩, ⟨3, "C"⟩])]
      [(9, ⟨9, "X"⟩)]).2 (by decide)).2

/-- C1 counterexample: `join(A, {})` with no groups at all (so player
1 leads nothing) computes a target dict of exactly one player, yet a
create-group command ("1,") IS sent to the controller — the skip in
`groupcmd_controller` only triggers on an empty dict. -/
theorem heos_C1_counterexample :
    (joinNewgroup [] ⟨1, "A"⟩ []).length = 1 ∧
    join [] ⟨1, "A"⟩ [] = some "1," := by
  constructor
  · rfl
  · rfl

/-- C1 as amended: whenever the computed target dict holds exactly one
player, `join` still sends the create-group command for it; only an
empty dict is skipped. -/
theorem heos_C1_amended_single_player_sends (groups : Groups) (master : HeosPlayer)
    (members : Dict HeosPlayer)
    (h : (joinNewgroup groups master members).length = 1) :
    join groups master members =
      some (cmdstring (joinNewgroup groups master members)) := by
  unfold join groupcmd_controller
  rw [if_pos]
  omega

/-- C1 witness: the single-player target of `join(A, {})` against an
empty store triggers the command. -/
theorem heos_C1_witness :
    join [] ⟨1, "A"⟩ [] = some (cmdstring (joinNewgroup [] ⟨1, "A"⟩ [])) :=
  heos_C1_amended_single_player_sends [] ⟨1, "A"⟩ [] (by decide)

/-- C2 at the failing input: group 1 is led by player 1 with members 2
and 3; `unjoin({2, 3})` should shrink the dict to the leader alone,
but the inner loop re-adds each member whenever it differs from the
*other* player to remove, so the full group {1, 2, 3} is sent back to
the controller. -/
theorem heos_C2_code_behavior :
    unjoinNewgroup [(1, HeosGroup.mk "g" ⟨1, "A"⟩ [⟨2, "B"⟩, ⟨3, "C"⟩])]
        [(2, ⟨2, "B"⟩), (3, ⟨3, "C"⟩)] =
      [(1, ⟨1, "A"⟩), (2, ⟨2, "B"⟩), (3, ⟨3, "C"⟩)] ∧
    unjoin [(1, HeosGroup.mk "g" ⟨1, "A"⟩ [⟨2, "B"⟩, ⟨3, "C"⟩])]
        [(2, ⟨2, "B"⟩), (3, ⟨3, "C"⟩)] = some "1,2,3," := by
  constructor
  · rfl
  · rfl

/-- C5: a failed refresh leaves the previously cached group mapping
fully intact — the error propagates, the state is unchanged, and the
membership and name queries still answer from the old mapping. -/
theorem heos_C5_failed_refresh_keeps_groups (st : GroupManagerState) (e : String) :
    (refresh_groups st (Except.error e)).1 = st ∧
    (refresh_groups st (Except.error e)).2 = some e ∧
    (∀ entities groupid,
      get_grouplist entities (refresh_groups st (Except.error e)).1.groups groupid =
        get_grouplist entities st.groups groupid) ∧
    (∀ groupid,
      get_groupname (refresh_groups st (Except.error e)).1.groups groupid =
        get_groupname st.groups groupid) := by
  refine ⟨rfl, rfl, ?_, ?_⟩
  · intro entities groupid
    rfl
  · intro groupid
    rfl

theorem cmdstring_foldl_comma (l : Dict HeosPlayer) (acc : String) (h : l ≠ []) :
    ∃ t, l.foldl (fun acc p => acc ++ (toString p.2.player_id ++ ",")) acc =
      t ++ "," := by
  induction l generalizing acc with
  | nil => exact absurd rfl h
  | cons p rest ih =>
      cases rest with
      | nil =>
          refine ⟨acc ++ toString p.2.player_id, ?_⟩
          simp only [List.foldl_cons, List.foldl_nil]
          rw [String.append_assoc]
      | cons q t =>
          simp only [List.foldl_cons]
          exact ih _ (by simp)

/-- C9: for every non-empty target dict the command string handed to
`create_group` ends in a trailing comma (the `rstrip` result is
discarded), and the string is passed on unmodified. -/
theorem heos_C9_trailing_comma (newgroup : Dict HeosPlayer) (h : newgroup ≠ []) :
    (∃ t, cmdstring newgroup = t ++ ",") ∧
    groupcmd_controller newgroup = some (cmdstring newgroup) := by
  constructor
  · exact cmdstring_foldl_comma newgroup "" h
  · unfold groupcmd_controller
    rw [if_pos (List.length_pos.mpr h)]

/-- C9 witness: the two-player dict {1, 2} serializes to "1,2," and
that exact string is sent. -/
theorem heos_C9_witness :
    (∃ t, cmdstring [(1, ⟨1, "A"⟩), (2, ⟨2, "B"⟩)] = t ++ ",") ∧
    groupcmd_controller [(1, ⟨1, "A"⟩), (2, ⟨2, "B"⟩)] =
      some (cmdstring [(1, ⟨1, "A"⟩), (2, ⟨2, "B"⟩)]) :=
  heos_C9_trailing_comma [(1, ⟨1, "A"⟩), (2, ⟨2, "B"⟩)] (by decide)

/-- C7: lookup misses are never fatal — a player in no group yields
the sentinel (`none`, embedding Python's `""`), an unknown group id
yields an empty member list and an empty name, and a known group id
yields the leader's entity entry first followed by the members in
controller-reported order. -/
theorem heos_C7_lookup_misses (entities : List (Nat × String)) (groups : Groups) :
    (∀ player : HeosPlayer,
      (∀ p ∈ groups, (player_master p.2 player || player_member p.2 player) = false) →
      get_groupid groups player = none) ∧
    (∀ gid : Nat, dictGet groups gid = none →
      get_grouplist entities groups (some gid) = [] ∧
      get_groupname groups (some gid) = "") ∧
    (∀ gid : Nat, ∀ group : HeosGroup, dictGet groups gid = some group →
      get_grouplist entities groups (some gid) =
        entity_id_from_player_id entities group.leader.player_id ::
          group.members.map
            (fun member => entity_id_from_player_id entities member.player_id)) := by
  refine ⟨?_, ?_, ?_⟩
  · intro player h
    unfold get_groupid
    have : groups.find?
        (fun p => player_master p.2 player || player_member p.2 player) = none := by
      rw [List.find?_eq_none]
      intro p hp
      simp [h p hp]
    rw [this]
    rfl
  · intro gid h
    constructor
    · simp [get_grouplist, groups_get, h]
    · simp [get_groupname, groups_get, h]
  · intro gid group h
    simp [get_grouplist, groups_get, h]

/-- C7 witness: with one group (1 led by player 1, member 2), player 9
gets the sentinel, id 5 gets an empty list and name, and id 1 gets the
leader's entity entry first. -/
theorem heos_C7_witness :
    get_groupid [(1, HeosGroup.mk "g" ⟨1, "A"⟩ [⟨2, "B"⟩])] ⟨9, "X"⟩ = none ∧
    get_grouplist [(1, "media_player.a"), (2, "media_player.b")]
        [(1, HeosGroup.mk "g" ⟨1, "A"⟩ [⟨2, "B"⟩])] (some 5) = [] ∧
    get_grouplist [(1, "media_player.a"), (2, "media_player.b")]
        [(1, HeosGroup.mk "g" ⟨1, "A"⟩ [⟨2, "B"⟩])] (some 1) =
      [entity_id_from_player_id [(1, "media_player.a"), (2, "media_player.b")] 1,
        entity_id_from_player_id [(1, "media_player.a"), (2, "media_player.b")] 2] := by
  refine ⟨?_, ?_, ?_⟩
  · exact (heos_C7_lookup_misses [(1, "media_player.a"), (2, "media_player.b")]
      [(1, HeosGroup.mk "g" ⟨1, "A"⟩ [⟨2, "B"⟩])]).1 ⟨9, "X"⟩ (by decide)
  · exact ((heos_C7_lookup_misses [(1, "media_player.a"), (2, "media_player.b")]
      [(1, HeosGroup.mk "g" ⟨1, "A"⟩ [⟨2, "B"⟩])]).2.1 5 (by decide)).1
  · exact (heos_C7_lookup_misses [(1, "media_player.a"), (2, "media_player.b")]
      [(1, HeosGroup.mk "g" ⟨1, "A"⟩ [⟨2, "B"⟩])]).2.2 1
      (HeosGroup.mk "g" ⟨1, "A"⟩ [⟨2, "B"⟩]) (by decide)

/-- C8: all three service handlers gate on controller connectivity
before anything else: when disconnected they return the logged no-op —
no command issued, no exception surfaced, `None` returned. -/
theorem heos_C8_handlers_gate_connectivity (connection_state : String)
    (body : HandlerResult) (h : connection_state ≠ STATE_CONNECTED) :
    groupinfo_handler connection_state body = handlerNoop ∧
    join_handler connection_state body = handlerNoop ∧
    unjoin_handler connection_state body = handlerNoop ∧
    handlerNoop.commands = [] ∧
    handlerNoop.raised = false ∧
    handlerNoop.retval = none := by
  unfold groupinfo_handler join_handler unjoin_handler
  rw [if_pos h]
  exact ⟨rfl, rfl, rfl, rfl, rfl, rfl⟩

/-- C8 witness: a disconnected controller short-circuits all three
handlers even when the body would have issued a command and raised. -/
theorem heos_C8_witness :
    groupinfo_handler "disconnected" ⟨["create_group"], true, some "x"⟩ =
      handlerNoop ∧
    join_handler "disconnected" ⟨["create_group"], true, some "x"⟩ = handlerNoop ∧
    unjoin_handler "disconnected" ⟨["create_group"], true, some "x"⟩ = handlerNoop := by
  have h := heos_C8_handlers_gate_connectivity "disconnected"
    ⟨["create_group"], true, some "x"⟩ (by decide)
  exact ⟨h.1, h.2.1, h.2.2.1⟩

/-- C10: when the entity-level rebuild hits a controller error on
refresh (and the connectivity gate passed), the entity's cached group
name and member list are cleared to "" and [] (its group id keeps its
old value), while the group manager's own mapping keeps the last
successfully fetched groups. -/
theorem heos_C10_entity_clears_on_error (connection_state : String)
    (entities : List (Nat × String)) (player : HeosPlayer)
    (st : HeosMediaPlayerState) (gm : GroupManagerState) (e : String)
    (hconn : connection_state = STATE_CONNECTED) :
    get_groups connection_state entities player st gm (Except.error e) =
      ({ st with group_name := "", group_list := [] }, gm, []) ∧
    (refresh_groups gm (Except.error e)).1 = gm := by
  subst hconn
  constructor
  · unfold get_groups
    rw [if_neg (by simp)]
    rfl
  · rfl

/-- C10 witness: concrete entity state with non-empty cached values is
cleared (except the group id) on a failed refresh. -/
theorem heos_C10_witness :
    get_groups STATE_CONNECTED [(1, "media_player.a")] ⟨1, "A"⟩
        ⟨some 1, [some "media_player.a"], "g"⟩
        ⟨[(1, HeosGroup.mk "g" ⟨1, "A"⟩ [⟨2, "B"⟩])]⟩ (Except.error "boom") =
      (⟨some 1, [], ""⟩, ⟨[(1, HeosGroup.mk "g" ⟨1, "A"⟩ [⟨2, "B"⟩])]⟩, []) :=
  (heos_C10_entity_clears_on_error STATE_CONNECTED [(1, "media_player.a")] ⟨1, "A"⟩
    ⟨some 1, [some "media_player.a"], "g"⟩
    ⟨[(1, HeosGroup.mk "g" ⟨1, "A"⟩ [⟨2, "B"⟩])]⟩ "boom" rfl).1

theorem list_length_le_one_eq (l : List α) (h : l.length ≤ 1) (a b : α)
    (ha : a ∈ l) (hb : b ∈ l) : a = b := by
  cases l with
  | nil => simp at ha
  | cons x t =>
      cases t with
      | nil =>
          simp only [List.mem_singleton] at ha hb
          rw [ha, hb]
      | cons y u => simp at h

theorem update_ids_pair_devices_no_old (r : Registries) (new_id old_id : Nat)
    (hne : old_id ≠ new_id)
    (h1 : (r.devices.filter (fun d => d.identifiers.contains old_id)).length ≤ 1) :
    async_get_device (update_ids_pair r new_id old_id).devices old_id = none := by
  unfold update_ids_pair
  cases hfind : async_get_device r.devices old_id with
  | none => simpa using hfind
  | some entry =>
      have hentry_mem : entry ∈ r.devices := List.mem_of_find?_eq_some hfind
      have hentry_old : entry.identifiers.contains old_id = true := by
        simpa using List.find?_some hfind
      have hentry_filter :
          entry ∈ r.devices.filter (fun d => d.identifiers.contains old_id) :=
        List.mem_filter.mpr ⟨hentry_mem, hentry_old⟩
      simp only
      unfold async_get_device async_update_device
      rw [List.find?_eq_none]
      intro d' hd'
      simp only [List.mem_map] at hd'
      obtain ⟨d, hd, hfd⟩ := hd'
      by_cases hid : d.id = entry.id
      · rw [← hfd]
        simp [hid, hne]
      · rw [← hfd]
        simp only [hid, if_neg, not_false_iff, Bool.not_eq_true]
        by_contra hcon
        simp only [Bool.not_eq_false] at hcon
        have hd_filter :
            d ∈ r.devices.filter (fun df => df.identifiers.contains old_id) :=
          List.mem_filter.mpr ⟨hd, hcon⟩
        exact hid (congrArg DeviceEntry.id
          (list_length_le_one_eq _ h1 d entry hd_filter hentry_filter))

theorem update_ids_pair_entities_no_old (r : Registries) (new_id old_id : Nat)
    (hne : toString old_id ≠ toString new_id)
    (h1 : (r.entities.filter
      (fun e => e.unique_id = toString old_id)).length ≤ 1) :
    async_get_entity_id (update_ids_pair r new_id old_id).entities
      (toString old_id) = none := by
  unfold update_ids_pair
  cases hfind : async_get_entity_id r.entities (toString old_id) with
  | none => simpa using hfind
  | some eid =>
      obtain ⟨ent, hent_find, hent_eid⟩ :=
        Option.map_eq_some'.mp hfind
      have hent_mem : ent ∈ r.entities := List.mem_of_find?_eq_some hent_find
      have hent_old : ent.unique_id = toString old_id := by
        simpa using List.find?_some hent_find
      have hent_filter :
          ent ∈ r.entities.filter (fun e => e.unique_id = toString old_id) :=
        List.mem_filter.mpr ⟨hent_mem, by simp [hent_old]⟩
      simp only
      unfold async_get_entity_id async_update_entity
      rw [Option.map_eq_none', List.find?_eq_none]
      intro e' he'
      simp only [List.mem_map] at he'
      obtain ⟨e, he, hfe⟩ := he'
      by_cases hidx : e.entity_id = eid
      · rw [← hfe]
        simp only [hidx, if_pos]
        simp only [decide_eq_true_eq]
        intro hcon
        exact hne hcon.symm
      · rw [← hfe]
        simp only [hidx, if_neg, not_false_iff, decide_eq_true_eq]
        intro hcon
        have he_filter :
            e ∈ r.entities.filter (fun ef => ef.unique_id = toString old_id) :=
          List.mem_filter.mpr ⟨he, by simp [hcon]⟩
        have : e = ent := list_length_le_one_eq _ h1 e ent he_filter hent_filter
        rw [this] at hidx
        exact hidx hent_eid

theorem update_ids_pair_fixpoint (r1 : Registries) (new_id old_id : Nat)
    (hd : async_get_device r1.devices old_id = none)
    (he : async_get_entity_id r1.entities (toString old_id) = none) :
    update_ids_pair r1 new_id old_id = r1 := by
  unfold update_ids_pair
  rw [hd, he]

theorem update_ids_pair_device_rekeyed (r : Registries) (new_id old_id : Nat)
    (entry : DeviceEntry) (hfind : async_get_device r.devices old_id = some entry) :
    { entry with identifiers := [new_id] } ∈ (update_ids_pair r new_id old_id).devices := by
  unfold update_ids_pair
  rw [hfind]
  simp only
  unfold async_update_device
  have hmem : entry ∈ r.devices := List.mem_of_find?_eq_some hfind
  have hrw : ({ entry with identifiers := [new_id] } : DeviceEntry) =
      (fun d => if d.id = entry.id then { d with identifiers := [new_id] } else d)
        entry := by
    simp
  rw [hrw]
  exact List.mem_map_of_mem _ hmem

theorem update_ids_pair_entity_rekeyed (r : Registries) (new_id old_id : Nat)
    (eid : String)
    (hfind : async_get_entity_id r.entities (toString old_id) = some eid) :
    ∃ ent ∈ (update_ids_pair r new_id old_id).entities,
      ent.entity_id = eid ∧ ent.unique_id = toString new_id := by
  obtain ⟨ent0, hent_find, hent_eid⟩ := Option.map_eq_some'.mp hfind
  have hmem : ent0 ∈ r.entities := List.mem_of_find?_eq_some hent_find
  refine ⟨{ ent0 with unique_id := toString new_id }, ?_, by simp [hent_eid], by simp⟩
  unfold update_ids_pair
  rw [hfind]
  simp only
  unfold async_update_entity
  have hrw : ({ ent0 with unique_id := toString new_id } : EntityEntry) =
      (fun e => if e.entity_id = eid then { e with unique_id := toString new_id }
        else e) ent0 := by
    simp [hent_eid]
  rw [hrw]
  exact List.mem_map_of_mem _ hmem

/-- C6: remapping an old id to a new id re-keys the (unique) device
and entity records keyed by the old id exactly once, after which no
record is keyed by the old id, and applying the same pair again is a
no-op.  The hypotheses are the registry invariants: at most one device
carries the old identifier and at most one entity carries the old
unique id, and the two ids are distinct (their string forms differ,
which also forces the integers apart). -/
theorem heos_C6_remap_idempotent (r : Registries) (new_id old_id : Nat)
    (hne : toString old_id ≠ toString new_id)
    (hdev : (r.devices.filter (fun d => d.identifiers.contains old_id)).length ≤ 1)
    (hent : (r.entities.filter (fun e => e.unique_id = toString old_id)).length ≤ 1) :
    update_ids (update_ids r [(new_id, old_id)]) [(new_id, old_id)] =
      update_ids r [(new_id, old_id)] ∧
    async_get_device (update_ids r [(new_id, old_id)]).devices old_id = none ∧
    async_get_entity_id (update_ids r [(new_id, old_id)]).entities
      (toString old_id) = none ∧
    (∀ entry, async_get_device r.devices old_id = some entry →
      { entry with identifiers := [new_id] } ∈
        (update_ids r [(new_id, old_id)]).devices) ∧
    (∀ eid, async_get_entity_id r.entities (toString old_id) = some eid →
      ∃ ent ∈ (update_ids r [(new_id, old_id)]).entities,
        ent.entity_id = eid ∧ ent.unique_id = toString new_id) := by
  have hne_id : old_id ≠ new_id := by
    intro h
    exact hne (by rw [h])
  have hsingle : update_ids r [(new_id, old_id)] = update_ids_pair r new_id old_id := rfl
  have hd := update_ids_pair_devices_no_old r new_id old_id hne_id hdev
  have he := update_ids_pair_entities_no_old r new_id old_id hne hent
  refine ⟨?_, ?_, ?_, ?_, ?_⟩
  · rw [hsingle]
    show update_ids_pair (update_ids_pair r new_id old_id) new_id old_id =
      update_ids_pair r new_id old_id
    exact update_ids_pair_fixpoint _ new_id old_id hd he
  · rw [hsingle]
    exact hd
  · rw [hsingle]
    exact he
  · intro entry hfind
    rw [hsingle]
    exact update_ids_pair_device_rekeyed r new_id old_id entry hfind
  · intro eid hfind
    rw [hsingle]
    exact update_ids_pair_entity_rekeyed r new_id old_id eid hfind

/-- C6 witness: a device and an entity keyed by id 5 are re-keyed to 9
once; the second application of the same pair changes nothing. -/
theorem heos_C6_witness :
    update_ids (update_ids ⟨[⟨"dev1", [5]⟩], [⟨"media_player.a", "5"⟩]⟩ [(9, 5)])
        [(9, 5)] =
      update_ids ⟨[⟨"dev1", [5]⟩], [⟨"media_player.a", "5"⟩]⟩ [(9, 5)] :=
  (heos_C6_remap_idempotent ⟨[⟨"dev1", [5]⟩], [⟨"media_player.a", "5"⟩]⟩ 9 5
    (by decide) (by decide) (by decide)).1
